import Mathlib

/-!
Shallow embedding of the GasCast-BBS core (`aprs_bbs.py`): the line codec,
the acknowledgment tracker, the mailbox and chat-group stores and the
command engine of class `APRSBBS`.  Python dictionaries are modelled as
association lists with unique-key update, Python sets as duplicate-free
lists, and the socket writes of `_send_message` as an accumulated list of
`OutMsg` values.  All definitions are total and executable.
-/

namespace AprsBbs

/-- Lookup in an association list, modelling Python `dict.get`. -/
def alookup {α β : Type} [DecidableEq α] : List (α × β) → α → Option β
  | [], _ => none
  | (k, v) :: rest, a => if k = a then some v else alookup rest a

/-- Update or insert a binding, modelling Python `dict[k] = v`. -/
def aset {α β : Type} [DecidableEq α] : List (α × β) → α → β → List (α × β)
  | [], a, b => [(a, b)]
  | (k, v) :: rest, a, b =>
    if k = a then (a, b) :: rest else (k, v) :: aset rest a b

/-- Delete a key, modelling Python `dict.pop(k, None)` / `del dict[k]`. -/
def aremove {α β : Type} [DecidableEq α] (l : List (α × β)) (a : α) : List (α × β) :=
  l.filter (fun p => decide (p.1 ≠ a))

/-- The `&#x7b;` character used by the APRS sequence-tag suffix. -/
def lbrace : Char := '\x7b'

/-- Python `str.strip()`: drop whitespace from both ends. -/
def pyStrip (s : String) : String :=
  ((s.toList.dropWhile Char.isWhitespace).reverse.dropWhile Char.isWhitespace).reverse.asString

/-- Python `str.upper()` (ASCII case mapping). -/
def pyUpper (s : String) : String :=
  (s.toList.map Char.toUpper).asString

/-- Python `str.lower()` (ASCII case mapping). -/
def pyLower (s : String) : String :=
  (s.toList.map Char.toLower).asString

/-- Python `s.startswith(pre)`. -/
def pyStartsWith (s pre : String) : Bool :=
  pre.toList.isPrefixOf s.toList

/-- Tokenizer for Python `str.split()` with no argument: tokens are maximal
whitespace-free runs; `acc` holds the current token reversed. -/
def wsTokens : List Char → List Char → List String
  | acc, [] => if acc.isEmpty then [] else [acc.reverse.asString]
  | acc, c :: rest =>
    if c.isWhitespace then
      if acc.isEmpty then wsTokens [] rest
      else acc.reverse.asString :: wsTokens [] rest
    else wsTokens (c :: acc) rest

/-- Python `str.split()` with no argument: split on whitespace runs, no empty parts. -/
def pySplitWs (s : String) : List String :=
  wsTokens [] s.toList

/-- Split a character list at the first occurrence of `c`, or `none` if absent. -/
def splitFirstAux (c : Char) : List Char → Option (List Char × List Char)
  | [] => none
  | x :: xs =>
    if x = c then some ([], xs)
    else
      match splitFirstAux c xs with
      | none => none
      | some (l, r) => some (x :: l, r)

/-- Python `s.split(c, 1)` when `c` occurs in `s`; `none` models `c not in s`. -/
def splitFirst (s : String) (c : Char) : Option (String × String) :=
  (splitFirstAux c s.toList).map (fun p => (p.1.asString, p.2.asString))

/-- Leading decimal digits of a character list, capped at `fuel` characters;
models the digit-collection loops of `_handle_packet` (cap 5). -/
def takeDigits : Nat → List Char → List Char
  | 0, _ => []
  | _, [] => []
  | n + 1, c :: rest => if c.isDigit then c :: takeDigits n rest else []

/-- Python `f"&#x7b;n:02d&#x7d;"`: decimal, left-padded with `0` to two characters. -/
def fmt2 (n : Nat) : String :=
  if n < 10 then "0" ++ toString n else toString n

/-- One outbound APRS text message as handed to `_send_message`:
destination callsign, the final body (sequence tag already appended when
`expectAck` is true) and whether an acknowledgment was requested. -/
structure OutMsg where
  dest : String
  body : String
  expectAck : Bool
deriving DecidableEq, Repr

/-- The mutable state of an `APRSBBS` instance: the BBS callsign and the
four stores (mailboxes, chat groups, per-destination sequence counters,
pending acknowledgments). -/
structure BBS where
  callsign : String
  mailboxes : List (String × List (String × String))
  chatGroups : List (String × List String)
  nextSeq : List (String × Nat)
  pendingAcks : List ((String × String) × String)
deriving DecidableEq, Repr

/-- A fresh BBS state with the given callsign, as built by `__init__`. -/
def initBBS (cs : String) : BBS :=
  ⟨cs, [], [], [], []⟩

/-- `APRSBBS._send_message`: when `expectAck` is true, reserve the next
two-digit sequence tag for the destination, advance the counter with
wraparound `(seq % 99) + 1`, append `&#x7b;NN` to the body and record the
untagged body in `pending_acks` under `(to_call.upper(), seq_str)`. -/
def sendMessage (b : BBS) (toCall msg : String) (expectAck : Bool) : BBS × OutMsg :=
  if expectAck then
    let seqNum := (alookup b.nextSeq toCall).getD 1
    let seqStr := fmt2 seqNum
    let b1 : BBS :=
      { b with
        nextSeq := aset b.nextSeq toCall (seqNum % 99 + 1)
        pendingAcks := aset b.pendingAcks (pyUpper toCall, seqStr) msg }
    (b1, ⟨toCall, msg ++ "\x7b" ++ seqStr, true⟩)
  else
    (b, ⟨toCall, msg, false⟩)

/-- `APRSBBS._store_private_message`: append to the recipient's mailbox
(creating it if absent) and confirm to the sender. -/
def storePrivateMessage (b : BBS) (fromCall toCall msg : String) : BBS × List OutMsg :=
  let b1 : BBS :=
    { b with
      mailboxes :=
        aset b.mailboxes toCall (((alookup b.mailboxes toCall).getD []) ++ [(fromCall, msg)]) }
  let r := sendMessage b1 fromCall ("Stored message for " ++ toCall ++ ".") true
  (r.1, [r.2])

/-- The delivery loop of `_handle_login`: send one ack-requiring message
per stored `(sender, body)` entry, in queue order. -/
def deliverInbox (callsign : String) : BBS → List (String × String) → BBS × List OutMsg
  | b, [] => (b, [])
  | b, (fromCall, msg) :: rest =>
    let r := sendMessage b callsign ("From " ++ fromCall ++ ": " ++ msg) true
    let r2 := deliverInbox callsign r.1 rest
    (r2.1, r.2 :: r2.2)

/-- The `self.mailboxes.setdefault(callsign, [])` step of `_handle_login`. -/
def ensureMailbox (b : BBS) (callsign : String) : BBS :=
  match alookup b.mailboxes callsign with
  | some _ => b
  | none => { b with mailboxes := aset b.mailboxes callsign [] }

/-- `APRSBBS._handle_login`: ensure mailbox presence, deliver and clear the
queued messages, or reply "No new messages." when the queue is empty. -/
def handleLogin (b : BBS) (callsign : String) : BBS × List OutMsg :=
  let b0 := ensureMailbox b callsign
  let inbox := (alookup b0.mailboxes callsign).getD []
  if inbox.isEmpty then
    let r := sendMessage b0 callsign "No new messages." true
    (r.1, [r.2])
  else
    let r := deliverInbox callsign b0 inbox
    ({ r.1 with mailboxes := aset r.1.mailboxes callsign [] }, r.2)

/-- The fixed help text of `_handle_help`. -/
def helpLines : List String :=
  [ "Available commands:"
  , "login                        — Register and check for new mail"
  , "msg CALLSIGN MESSAGE         — Send a private message"
  , "group create NAME            — Create a new chat group and join it"
  , "group join NAME              — Join an existing chat group"
  , "group leave NAME             — Leave a chat group"
  , "group msg NAME MESSAGE       — Send a message to all group members"
  , "help                         — Show this help message" ]

/-- The per-line sending loop of `_handle_help`. -/
def sendLines (dest : String) : BBS → List String → BBS × List OutMsg
  | b, [] => (b, [])
  | b, l :: rest =>
    let r := sendMessage b dest l true
    let r2 := sendLines dest r.1 rest
    (r2.1, r.2 :: r2.2)

/-- `APRSBBS._handle_help`: send each help line to the caller. -/
def handleHelp (b : BBS) (callsign : String) : BBS × List OutMsg :=
  sendLines callsign b helpLines

/-- `APRSBBS._create_group`: create a group with the caller as sole member,
or report that it already exists. -/
def createGroup (b : BBS) (caller gname : String) : BBS × List OutMsg :=
  match alookup b.chatGroups gname with
  | some _ =>
    let r := sendMessage b caller ("Group \x27" ++ gname ++ "\x27 already exists.") true
    (r.1, [r.2])
  | none =>
    let b1 : BBS := { b with chatGroups := aset b.chatGroups gname [caller] }
    let r :=
      sendMessage b1 caller ("Group \x27" ++ gname ++ "\x27 created and you have joined.") true
    (r.1, [r.2])

/-- `APRSBBS._join_group`: add the caller to an existing group; an absent or
empty member set reads as "does not exist" (Python `if not members`). -/
def joinGroup (b : BBS) (caller gname : String) : BBS × List OutMsg :=
  let members := (alookup b.chatGroups gname).getD []
  if members.isEmpty then
    let r := sendMessage b caller ("Group \x27" ++ gname ++ "\x27 does not exist.") true
    (r.1, [r.2])
  else if caller ∈ members then
    let r :=
      sendMessage b caller ("You are already a member of \x27" ++ gname ++ "\x27.") true
    (r.1, [r.2])
  else
    let b1 : BBS := { b with chatGroups := aset b.chatGroups gname (members ++ [caller]) }
    let r := sendMessage b1 caller ("Joined group \x27" ++ gname ++ "\x27.") true
    (r.1, [r.2])

/-- `APRSBBS._leave_group`: remove the caller, confirm, and delete the group
record when the member set became empty. -/
def leaveGroup (b : BBS) (caller gname : String) : BBS × List OutMsg :=
  let members := (alookup b.chatGroups gname).getD []
  if members.isEmpty ∨ caller ∉ members then
    let r := sendMessage b caller ("You are not a member of \x27" ++ gname ++ "\x27.") true
    (r.1, [r.2])
  else
    let members1 := members.filter (fun x => decide (x ≠ caller))
    let b1 : BBS := { b with chatGroups := aset b.chatGroups gname members1 }
    let r := sendMessage b1 caller ("Left group \x27" ++ gname ++ "\x27.") true
    let b3 : BBS :=
      if members1.isEmpty then { r.1 with chatGroups := aremove r.1.chatGroups gname } else r.1
    (b3, [r.2])

/-- The fan-out loop of `_group_message`: one ack-requiring message per
member other than the caller. -/
def broadcastTo (caller gname msg : String) : BBS → List String → BBS × List OutMsg
  | b, [] => (b, [])
  | b, mem :: rest =>
    if mem = caller then broadcastTo caller gname msg b rest
    else
      let r := sendMessage b mem ("[" ++ gname ++ "] " ++ caller ++ ": " ++ msg) true
      let r2 := broadcastTo caller gname msg r.1 rest
      (r2.1, r.2 :: r2.2)

/-- `APRSBBS._group_message`: relay to every other member, then confirm to
the caller; non-membership (or an absent group) yields one error reply. -/
def groupMessage (b : BBS) (caller gname msg : String) : BBS × List OutMsg :=
  let members := (alookup b.chatGroups gname).getD []
  if members.isEmpty ∨ caller ∉ members then
    let r := sendMessage b caller ("You are not a member of \x27" ++ gname ++ "\x27.") true
    (r.1, [r.2])
  else
    let r := broadcastTo caller gname msg b members
    let r2 := sendMessage r.1 caller ("Sent to group \x27" ++ gname ++ "\x27.") true
    (r2.1, r.2 ++ [r2.2])

/-- The usage reply of the `group` dispatch's final `else` branch. -/
def groupUsage (b : BBS) (fromCall : String) : BBS × List OutMsg :=
  let r :=
    sendMessage b fromCall "Usage: group [create|join|leave|msg] <name> [message]" true
  (r.1, [r.2])

/-- The "Unknown command" reply of `_process_command`'s final `else`. -/
def unknownCommand (b : BBS) (fromCall : String) : BBS × List OutMsg :=
  let r :=
    sendMessage b fromCall "Unknown command. Send \x27help\x27 for a list of commands." true
  (r.1, [r.2])

/-- The `group` sub-command dispatch of `_process_command` (the branch
guarded by `cmd == 'group' and len(parts) >= 2`), given `rest = parts[1:]`
with `rest` nonempty. -/
def groupDispatch (b : BBS) (fromCall : String) (sub0 : String) (args : List String) :
    BBS × List OutMsg :=
  let sub := pyLower sub0
  match args with
  | [] => groupUsage b fromCall
  | gname :: more =>
    if sub = "create" then createGroup b fromCall (pyLower gname)
    else if sub = "join" then joinGroup b fromCall (pyLower gname)
    else if sub = "leave" then leaveGroup b fromCall (pyLower gname)
    else if sub = "msg" then
      match more with
      | [] => groupUsage b fromCall
      | m0 :: ms => groupMessage b fromCall (pyLower gname) (String.intercalate " " (m0 :: ms))
    else groupUsage b fromCall

/-- `APRSBBS._process_command`: tokenize the body and dispatch on the first
token (case-insensitive).  A bare `group` with no sub-command falls through
to the final "Unknown command" branch, mirroring
`elif cmd == 'group' and len(parts) >= 2`. -/
def processCommand (b : BBS) (fromCall text : String) : BBS × List OutMsg :=
  if text = "" then (b, [])
  else
    match pySplitWs (pyStrip text) with
    | [] => (b, [])
    | cmd0 :: rest =>
      let cmd := pyLower cmd0
      if cmd = "login" then handleLogin b fromCall
      else if cmd = "help" then handleHelp b fromCall
      else if cmd = "msg" ∨ cmd = "send" then
        match rest with
        | toCall :: m0 :: ms =>
          storePrivateMessage b fromCall (pyUpper toCall) (String.intercalate " " (m0 :: ms))
        | _ =>
          let r := sendMessage b fromCall "Usage: msg CALLSIGN message" true
          (r.1, [r.2])
      else if cmd = "group" then
        match rest with
        | [] => unknownCommand b fromCall
        | sub0 :: args => groupDispatch b fromCall sub0 args
      else unknownCommand b fromCall

/-- A parsed inbound frame: source callsign, the trimmed upper-cased
addressee field, the message body with any `&#x7b;`-suffix removed, and the
captured sequence tag when digits followed the `&#x7b;`. -/
structure Frame where
  src : String
  destField : String
  body : String
  seqTag : Option String
deriving DecidableEq, Repr

/-- The line-codec part of `_handle_packet` (lines 278-318): TNC2 header
split, APRS message marker, 9-byte addressee field and optional sequence
tag.  `none` models every silent early `return` on malformed framing. -/
def parseFrame (packet : String) : Option Frame :=
  match splitFirst packet ':' with
  | none => none
  | some (header, data) =>
    match splitFirst header '>' with
    | none => none
    | some (src, _rest) =>
      let dataL := data.toList
      match dataL with
      | [] => none
      | d0 :: _ =>
        if d0 ≠ ':' then none
        else if dataL.length < 11 then none
        else
          let destField := pyUpper (pyStrip ((dataL.drop 1).take 9).asString)
          match dataL.drop 10 with
          | [] => none
          | r0 :: rtail =>
            if r0 ≠ ':' then none
            else
              let messageText := rtail.asString
              match splitFirst messageText lbrace with
              | none => some ⟨src, destField, messageText, none⟩
              | some (body, seqPart) =>
                let ds := takeDigits 5 seqPart.toList
                if ds.isEmpty then some ⟨src, destField, body, none⟩
                else some ⟨src, destField, body, some ds.asString⟩

/-- `APRSBBS._handle_packet`: parse the line; drop frames not addressed to
our callsign; resolve `ack`/`rej` bodies against `pending_acks` and return
(no reply); otherwise run the command engine and, when the inbound frame
carried a sequence tag, append one `ack<tag>` to the original sender. -/
def handlePacket (b : BBS) (packet : String) : BBS × List OutMsg :=
  match parseFrame packet with
  | none => (b, [])
  | some fr =>
    if fr.destField ≠ b.callsign then (b, [])
    else
      let lowerMsg := pyLower (pyStrip fr.body)
      if pyStartsWith lowerMsg "ack" then
        let ds := takeDigits 5 (lowerMsg.toList.drop 3)
        if ds.isEmpty then (b, [])
        else ({ b with pendingAcks := aremove b.pendingAcks (pyUpper fr.src, ds.asString) }, [])
      else if pyStartsWith lowerMsg "rej" then
        let ds := takeDigits 5 (lowerMsg.toList.drop 3)
        if ds.isEmpty then (b, [])
        else ({ b with pendingAcks := aremove b.pendingAcks (pyUpper fr.src, ds.asString) }, [])
      else
        let r := processCommand b (pyUpper fr.src) (pyStrip fr.body)
        match fr.seqTag with
        | none => (r.1, r.2)
        | some t =>
          let r2 := sendMessage r.1 fr.src ("ack" ++ t) true
          (r2.1, r.2 ++ [r2.2])

/-! Association-list lemmas for the dictionary model. -/

theorem alookup_aset_self {α β : Type} [DecidableEq α] (l : List (α × β)) (k : α) (v : β) :
    alookup (aset l k v) k = some v := by
  induction l with
  | nil => simp [aset, alookup]
  | cons p rest ih =>
    obtain ⟨k1, v1⟩ := p
    by_cases h : k1 = k
    · simp [aset, h, alookup]
    · simp [aset, h, alookup, ih]

theorem alookup_aset_ne {α β : Type} [DecidableEq α] (l : List (α × β)) (k k1 : α) (v : β)
    (h : k1 ≠ k) : alookup (aset l k v) k1 = alookup l k1 := by
  induction l with
  | nil => simp [aset, alookup, Ne.symm h]
  | cons p rest ih =>
    obtain ⟨k2, v2⟩ := p
    by_cases h2 : k2 = k
    · subst h2
      simp [aset, alookup, Ne.symm h]
    · simp [aset, h2, alookup, ih]

theorem alookup_aremove_self {α β : Type} [DecidableEq α] (l : List (α × β)) (a : α) :
    alookup (aremove l a) a = none := by
  induction l with
  | nil => simp [aremove, alookup]
  | cons p rest ih =>
    obtain ⟨k1, v1⟩ := p
    by_cases h : k1 = a
    · simpa [aremove, h] using ih
    · simpa [aremove, h, alookup] using ih

theorem alookup_aremove_ne {α β : Type} [DecidableEq α] (l : List (α × β)) (a k1 : α)
    (h : k1 ≠ a) : alookup (aremove l a) k1 = alookup l k1 := by
  induction l with
  | nil => simp [aremove, alookup]
  | cons p rest ih =>
    obtain ⟨k2, v2⟩ := p
    by_cases h2 : k2 = a
    · subst h2
      simpa [aremove, alookup, Ne.symm h] using ih
    · by_cases h3 : k2 = k1
      · subst h3
        simp [aremove, alookup, h]
      · simpa [aremove, h2, alookup, h3] using ih

theorem aremove_eq_self_of_none {α β : Type} [DecidableEq α] (l : List (α × β)) (a : α)
    (h : alookup l a = none) : aremove l a = l := by
  induction l with
  | nil => simp [aremove]
  | cons p rest ih =>
    obtain ⟨k1, v1⟩ := p
    by_cases h2 : k1 = a
    · simp [alookup, h2] at h
    · simp [alookup, h2] at h
      simp [aremove, h2] at ih ⊢
      exact ih h

theorem mem_aset {α β : Type} [DecidableEq α] (l : List (α × β)) (k : α) (v : β)
    (p : α × β) (h : p ∈ aset l k v) : p = (k, v) ∨ p ∈ l := by
  induction l with
  | nil => simpa [aset] using h
  | cons q rest ih =>
    obtain ⟨k1, v1⟩ := q
    by_cases h2 : k1 = k
    · simp [aset, h2] at h
      rcases h with h | h
      · exact Or.inl (by simp [h])
      · exact Or.inr (by simp [h])
    · simp [aset, h2] at h
      rcases h with h | h
      · exact Or.inr (by simp [h])
      · rcases ih h with h3 | h3
        · exact Or.inl h3
        · exact Or.inr (by simp [h3])

/-! Basic facts about `sendMessage` and the sequence counters. -/

/-- The per-destination counter value the next send will use (code default 1). -/
def seqCtr (b : BBS) (d : String) : Nat :=
  (alookup b.nextSeq d).getD 1

/-- The tag `_send_message` will issue next for a destination. -/
def issuedTag (b : BBS) (d : String) : String :=
  fmt2 (seqCtr b d)

theorem sendMessage_true_def (b : BBS) (d m : String) :
    sendMessage b d m true =
      ({ b with
          nextSeq := aset b.nextSeq d (seqCtr b d % 99 + 1)
          pendingAcks := aset b.pendingAcks (pyUpper d, issuedTag b d) m },
        ⟨d, m ++ "\x7b" ++ issuedTag b d, true⟩) := rfl

theorem sendMessage_callsign (b : BBS) (d m : String) (a : Bool) :
    (sendMessage b d m a).1.callsign = b.callsign := by
  cases a <;> rfl

theorem sendMessage_mailboxes (b : BBS) (d m : String) (a : Bool) :
    (sendMessage b d m a).1.mailboxes = b.mailboxes := by
  cases a <;> rfl

theorem sendMessage_chatGroups (b : BBS) (d m : String) (a : Bool) :
    (sendMessage b d m a).1.chatGroups = b.chatGroups := by
  cases a <;> rfl

theorem sendMessage_seqCtr_self (b : BBS) (d m : String) :
    seqCtr (sendMessage b d m true).1 d = seqCtr b d % 99 + 1 := by
  simp [sendMessage_true_def, seqCtr, alookup_aset_self]

theorem sendMessage_seqCtr_ne (b : BBS) (d d1 m : String) (h : d1 ≠ d) :
    seqCtr (sendMessage b d m true).1 d1 = seqCtr b d1 := by
  simp [sendMessage_true_def, seqCtr, alookup_aset_ne _ _ _ _ h]

theorem sendMessage_expectAck (b : BBS) (d m : String) :
    (sendMessage b d m true).2 = ⟨d, m ++ "\x7b" ++ issuedTag b d, true⟩ := rfl

/-! Bounded computational facts about two-digit tags, settled by `decide`. -/

theorem fmt2_ne_zerozero : ∀ n < 100, 1 ≤ n → fmt2 n ≠ "00" := by decide

theorem takeDigits_fmt2 : ∀ n < 100, takeDigits 5 (fmt2 n).toList = (fmt2 n).toList := by decide

theorem ack_fmt2_facts :
    ∀ n < 100,
      pyStrip ("ack" ++ fmt2 n) = "ack" ++ fmt2 n ∧
      pyLower ("ack" ++ fmt2 n) = "ack" ++ fmt2 n ∧
      pyStartsWith ("ack" ++ fmt2 n) "ack" = true ∧
      takeDigits 5 (("ack" ++ fmt2 n).toList.drop 3) = (fmt2 n).toList ∧
      ((fmt2 n).toList).asString = fmt2 n := by decide

theorem fmt2_toList_ne : ∀ n < 100, ((fmt2 n).toList).isEmpty = false := by decide

/-! Tag traces: what `_send_message` issues over a sequence of sends. -/

/-- Run a list of ack-requiring sends `(destination, body)` in order,
recording for each the destination and the tag `_send_message` issued. -/
def sendTags : BBS → List (String × String) → List (String × String)
  | _, [] => []
  | b, (d, msg) :: rest => (d, issuedTag b d) :: sendTags (sendMessage b d msg true).1 rest

/-- The tag cycle starting at counter value `c`: `fmt2 c`, then continue from
`c % 99 + 1`, mirroring the counter update in `_send_message`. -/
def cycleFrom : Nat → Nat → List String
  | _, 0 => []
  | c, k + 1 => fmt2 c :: cycleFrom (c % 99 + 1) k

theorem sendTags_filter (d : String) :
    ∀ (sends : List (String × String)) (b : BBS),
      ((sendTags b sends).filter (fun p => decide (p.1 = d))).map Prod.snd
        = cycleFrom (seqCtr b d) ((sends.filter (fun p => decide (p.1 = d))).length) := by
  intro sends
  induction sends with
  | nil => intro b; rfl
  | cons p rest ih =>
    intro b
    obtain ⟨d1, msg⟩ := p
    by_cases h : d1 = d
    · subst h
      have hs := sendMessage_seqCtr_self b d1 msg
      simp [sendTags, issuedTag, ih, hs, cycleFrom]
    · have hs := sendMessage_seqCtr_ne b d1 d msg (Ne.symm h)
      simp [sendTags, h, ih, hs]

theorem cycleFrom_eq : ∀ (k m : Nat),
    cycleFrom (m % 99 + 1) k = (List.range k).map (fun i => fmt2 ((m + i) % 99 + 1)) := by
  intro k
  induction k with
  | zero => intro m; rfl
  | succ k ih =>
    intro m
    have h1 : (m % 99 + 1) % 99 = (m + 1) % 99 := by omega
    have h2 : ∀ i, m + 1 + i = m + (i + 1) := by intro i; omega
    simp [cycleFrom, h1, ih (m + 1), List.range_succ_eq_map, List.map_map, Function.comp, h2]

/-- C1: for any interleaving of ack-requiring sends, the tags issued to a
fixed destination are `01, 02, …, 99, 01, …` (the `i`-th is
`fmt2 (i % 99 + 1)`), depending only on that destination's own send count
(independence of other destinations); `00` is never issued; and each
issued tag is exactly what gets appended to the transmitted body. -/
theorem seq_tags_cycle (cs d : String) (sends : List (String × String)) :
    ((sendTags (initBBS cs) sends).filter (fun p => decide (p.1 = d))).map Prod.snd
      = (List.range ((sends.filter (fun p => decide (p.1 = d))).length)).map
          (fun i => fmt2 (i % 99 + 1))
    ∧ (∀ t ∈ ((sendTags (initBBS cs) sends).filter (fun p => decide (p.1 = d))).map Prod.snd,
        t ≠ "00")
    ∧ ∀ (b : BBS) (msg : String),
        (sendMessage b d msg true).2 = ⟨d, msg ++ "\x7b" ++ issuedTag b d, true⟩ := by
  have h1 := sendTags_filter d sends (initBBS cs)
  have h0 : seqCtr (initBBS cs) d = 0 % 99 + 1 := rfl
  rw [h0, cycleFrom_eq] at h1
  simp only [Nat.zero_add] at h1
  refine ⟨h1, ?_, fun b msg => sendMessage_expectAck b d msg⟩
  intro t ht
  rw [h1] at ht
  rcases List.mem_map.mp ht with ⟨i, _, hi⟩
  rw [← hi]
  exact fmt2_ne_zerozero (i % 99 + 1) (by omega) (by omega)

theorem seq_tags_cycle_witness :
    ("01" ∈ ((sendTags (initBBS "BBS") [("A", "x"), ("B", "y"), ("A", "z")]).filter
        (fun p => decide (p.1 = "A"))).map Prod.snd) ∧ "01" ≠ "00" :=
  ⟨by decide, (seq_tags_cycle "BBS" "A" [("A", "x"), ("B", "y"), ("A", "z")]).2.1 "01" (by decide)⟩

/-! Mailbox deposit/drain development. -/

theorem str_append_assoc (a b c : String) : a ++ b ++ c = a ++ (b ++ c) := by
  rcases a with ⟨la⟩; rcases b with ⟨lb⟩; rcases c with ⟨lc⟩
  show String.mk (la ++ lb ++ lc) = String.mk (la ++ (lb ++ lc))
  rw [List.append_assoc]

theorem storePrivateMessage_mailboxes (b : BBS) (s r m : String) :
    (storePrivateMessage b s r m).1.mailboxes
      = aset b.mailboxes r (((alookup b.mailboxes r).getD []) ++ [(s, m)]) := by
  simp [storePrivateMessage, sendMessage_mailboxes]

/-- Deposit a list of `(sender, body)` messages into one recipient's
mailbox via `_store_private_message`, collecting the confirmations. -/
def depositAll (recip : String) : BBS → List (String × String) → BBS × List OutMsg
  | b, [] => (b, [])
  | b, (s, m) :: rest =>
    let r := storePrivateMessage b s recip m
    let r2 := depositAll recip r.1 rest
    (r2.1, r.2 ++ r2.2)

theorem depositAll_mailbox (recip : String) :
    ∀ (deposits : List (String × String)) (b : BBS), deposits ≠ [] →
      alookup (depositAll recip b deposits).1.mailboxes recip
        = some (((alookup b.mailboxes recip).getD []) ++ deposits) := by
  intro deposits
  induction deposits with
  | nil => intro b h; exact absurd rfl h
  | cons p rest ih =>
    intro b _
    obtain ⟨s, m⟩ := p
    have hb1 : alookup (storePrivateMessage b s recip m).1.mailboxes recip
        = some (((alookup b.mailboxes recip).getD []) ++ [(s, m)]) := by
      rw [storePrivateMessage_mailboxes]
      exact alookup_aset_self _ _ _
    by_cases hr : rest = []
    · subst hr
      simpa [depositAll] using hb1
    · have h2 := ih (storePrivateMessage b s recip m).1 hr
      rw [hb1] at h2
      simp only [Option.getD_some] at h2
      simp only [depositAll]
      rw [h2]
      simp

theorem deliverInbox_mailboxes (cs : String) :
    ∀ (inbox : List (String × String)) (b : BBS),
      (deliverInbox cs b inbox).1.mailboxes = b.mailboxes := by
  intro inbox
  induction inbox with
  | nil => intro b; rfl
  | cons p rest ih =>
    intro b
    obtain ⟨s, m⟩ := p
    simp [deliverInbox, ih, sendMessage_mailboxes]

theorem deliverInbox_forall (cs : String) :
    ∀ (inbox : List (String × String)) (b : BBS),
      List.Forall₂
        (fun (dep : String × String) (m : OutMsg) =>
          m.dest = cs ∧ m.expectAck = true ∧
            ∃ t, m.body = "From " ++ dep.1 ++ ": " ++ dep.2 ++ ("\x7b" ++ t))
        inbox (deliverInbox cs b inbox).2 := by
  intro inbox
  induction inbox with
  | nil => intro b; simp [deliverInbox]
  | cons p rest ih =>
    intro b
    obtain ⟨s, m⟩ := p
    simp only [deliverInbox]
    refine List.Forall₂.cons ⟨rfl, rfl, ⟨issuedTag b cs, ?_⟩⟩ (ih _)
    show ("From " ++ s ++ ": " ++ m) ++ "\x7b" ++ issuedTag b cs
        = "From " ++ s ++ ": " ++ m ++ ("\x7b" ++ issuedTag b cs)
    rw [str_append_assoc]

theorem ensureMailbox_lookup (b : BBS) (cs : String)
    (h : (alookup b.mailboxes cs).getD [] = []) :
    alookup (ensureMailbox b cs).mailboxes cs = some [] := by
  cases halo : alookup b.mailboxes cs with
  | none => simp [ensureMailbox, halo, alookup_aset_self]
  | some v =>
    rw [halo] at h
    simp only [Option.getD_some] at h
    subst h
    simp [ensureMailbox, halo]

theorem ensureMailbox_of_some (b : BBS) (cs : String) (v : List (String × String))
    (h : alookup b.mailboxes cs = some v) : ensureMailbox b cs = b := by
  simp [ensureMailbox, h]

/-- C2: depositing `N` messages for a recipient and then handling `login`
from that recipient emits exactly `N` ack-requiring deliveries in deposit
order (`Forall₂` forces equal lengths and pointwise correspondence), the
recipient's mailbox is empty immediately after, and a `login` with an
empty or absent mailbox emits exactly one "No new messages." reply. -/
theorem mailbox_login_roundtrip (recip : String) (deposits : List (String × String)) (b : BBS)
    (h : (alookup b.mailboxes recip).getD [] = []) :
    (deposits ≠ [] →
      List.Forall₂
        (fun (dep : String × String) (m : OutMsg) =>
          m.dest = recip ∧ m.expectAck = true ∧
            ∃ t, m.body = "From " ++ dep.1 ++ ": " ++ dep.2 ++ ("\x7b" ++ t))
        deposits (handleLogin (depositAll recip b deposits).1 recip).2)
    ∧ (deposits = [] →
        ∃ t, (handleLogin (depositAll recip b deposits).1 recip).2
          = [⟨recip, "No new messages." ++ ("\x7b" ++ t), true⟩])
    ∧ alookup (handleLogin (depositAll recip b deposits).1 recip).1.mailboxes recip
        = some [] := by
  cases deposits with
  | nil =>
    have hbox := ensureMailbox_lookup b recip h
    have hlogin : handleLogin b recip
        = ((sendMessage (ensureMailbox b recip) recip "No new messages." true).1,
            [⟨recip, "No new messages." ++ "\x7b" ++ issuedTag (ensureMailbox b recip) recip,
              true⟩]) := by
      simp [handleLogin, hbox, sendMessage_expectAck]
    refine ⟨fun hne => absurd rfl hne, fun _ => ?_, ?_⟩
    · refine ⟨issuedTag (ensureMailbox b recip) recip, ?_⟩
      show (handleLogin b recip).2 = _
      rw [hlogin, str_append_assoc]
    · show alookup (handleLogin b recip).1.mailboxes recip = some []
      rw [hlogin, sendMessage_mailboxes]
      exact hbox
  | cons p rest =>
    have hmb := depositAll_mailbox recip (p :: rest) b (by simp)
    rw [h] at hmb
    simp only [List.nil_append] at hmb
    have hens := ensureMailbox_of_some _ recip _ hmb
    have hlogin : handleLogin (depositAll recip b (p :: rest)).1 recip
        = ({ (deliverInbox recip (depositAll recip b (p :: rest)).1 (p :: rest)).1 with
              mailboxes :=
                aset (deliverInbox recip (depositAll recip b (p :: rest)).1 (p :: rest)).1.mailboxes
                  recip [] },
            (deliverInbox recip (depositAll recip b (p :: rest)).1 (p :: rest)).2) := by
      simp [handleLogin, hens, hmb]
    refine ⟨fun _ => ?_, fun he => by simp at he, ?_⟩
    · rw [hlogin]
      exact deliverInbox_forall recip (p :: rest) _
    · rw [hlogin]
      exact alookup_aset_self _ _ _

/-! Acknowledgment policy of help text and confirmations. -/

theorem sendMessage_ack_true (b : BBS) (d s : String) :
    ((sendMessage b d s true).2).expectAck = true := rfl

theorem sendLines_all_ack (dest : String) :
    ∀ (lines : List String) (b : BBS) (m : OutMsg),
      m ∈ (sendLines dest b lines).2 → m.expectAck = true := by
  intro lines
  induction lines with
  | nil => intro b m hm; simp [sendLines] at hm
  | cons l rest ih =>
    intro b m hm
    simp only [sendLines, List.mem_cons] at hm
    rcases hm with hm | hm
    · rw [hm]; rfl
    · exact ih _ m hm

/-- C3 counterexample: in the code `_send_message` defaults to
`expect_ack=True`, so help lines and command confirmations are tagged,
advance the caller's sequence counter and create pending-ack entries;
after a `help` from a fresh state the counter stands at 9 and the pending
table is nonempty, and the `msg` confirmation also requests an ack. -/
theorem help_no_ack_cex :
    (handleHelp (initBBS "BBS") "N0CALL").2.head?.map OutMsg.expectAck = some true
    ∧ alookup (handleHelp (initBBS "BBS") "N0CALL").1.nextSeq "N0CALL" = some 9
    ∧ (handleHelp (initBBS "BBS") "N0CALL").1.pendingAcks ≠ []
    ∧ (processCommand (initBBS "BBS") "N0CALL" "msg N1CALL hi").2.head?.map OutMsg.expectAck
        = some true := by decide

/-- C3 amended: every help line and every `msg`/`group create`/`group
join`/`group leave` reply is sent with `expect_ack=true`; consequently a
sequence tag is appended to the body, the per-destination counter advances
and a pending-acknowledgment entry is recorded for it. -/
theorem help_confirmations_request_ack (b : BBS) (caller toCall gname msg : String) :
    (∀ m ∈ (handleHelp b caller).2, m.expectAck = true)
    ∧ (∀ m ∈ (storePrivateMessage b caller toCall msg).2, m.expectAck = true)
    ∧ (∀ m ∈ (createGroup b caller gname).2, m.expectAck = true)
    ∧ (∀ m ∈ (joinGroup b caller gname).2, m.expectAck = true)
    ∧ (∀ m ∈ (leaveGroup b caller gname).2, m.expectAck = true)
    ∧ (sendMessage b caller msg true).2.body = msg ++ "\x7b" ++ issuedTag b caller
    ∧ seqCtr (sendMessage b caller msg true).1 caller = seqCtr b caller % 99 + 1
    ∧ alookup (sendMessage b caller msg true).1.pendingAcks (pyUpper caller, issuedTag b caller)
        = some msg := by
  refine ⟨fun m hm => sendLines_all_ack caller helpLines b m hm, ?_, ?_, ?_, ?_, rfl,
    sendMessage_seqCtr_self b caller msg, ?_⟩
  · intro m hm
    simp only [storePrivateMessage, List.mem_singleton] at hm
    rw [hm]; rfl
  · intro m hm
    rcases halo : alookup b.chatGroups gname with _ | v
    · simp only [createGroup, halo, List.mem_singleton] at hm
      rw [hm]; rfl
    · simp only [createGroup, halo, List.mem_singleton] at hm
      rw [hm]; rfl
  · intro m hm
    simp only [joinGroup] at hm
    split at hm
    · simp only [List.mem_singleton] at hm
      rw [hm]; rfl
    · split at hm
      · simp only [List.mem_singleton] at hm
        rw [hm]; rfl
      · simp only [List.mem_singleton] at hm
        rw [hm]; rfl
  · intro m hm
    simp only [leaveGroup] at hm
    split at hm
    · simp only [List.mem_singleton] at hm
      rw [hm]; rfl
    · simp only [List.mem_singleton] at hm
      rw [hm]; rfl
  · simp [sendMessage_true_def, alookup_aset_self]

theorem help_confirmations_request_ack_witness :
    ((handleHelp (initBBS "BBS") "N0CALL").2.head?.map OutMsg.expectAck = some true) ∧
      (sendMessage (initBBS "BBS") "N0CALL" "hi" true).2.body = "hi\x7b01" := by
  have h := help_confirmations_request_ack (initBBS "BBS") "N0CALL" "N1CALL" "g" "hi"
  have h1 := h.1
  have h2 := h.2.2.2.2.2.1
  constructor
  · have hmem : (handleHelp (initBBS "BBS") "N0CALL").2.head?.map OutMsg.expectAck
        = some true ∨ False := by
      left
      cases hh : (handleHelp (initBBS "BBS") "N0CALL").2 with
      | nil => exact absurd hh (by decide)
      | cons m rest =>
        have : m.expectAck = true := h1 m (by rw [hh]; exact List.mem_cons_self m rest)
        simp [hh, this]
    exact hmem.resolve_right (fun f => f)
  · exact h2

theorem mailbox_login_roundtrip_witness :
    ((alookup (initBBS "BBS").mailboxes "N1CALL").getD [] = [])
    ∧ List.Forall₂
        (fun (dep : String × String) (m : OutMsg) =>
          m.dest = "N1CALL" ∧ m.expectAck = true ∧
            ∃ t, m.body = "From " ++ dep.1 ++ ": " ++ dep.2 ++ ("\x7b" ++ t))
        [("N0CALL", "hello there")]
        (handleLogin (depositAll "N1CALL" (initBBS "BBS") [("N0CALL", "hello there")]).1
          "N1CALL").2 :=
  ⟨by decide,
    (mailbox_login_roundtrip "N1CALL" [("N0CALL", "hello there")] (initBBS "BBS")
      (by decide)).1 (by decide)⟩

/-! Acknowledgment round-trip development. -/

/-- C4: sending an ack-requiring message to `d` records the untagged body
in `pending_acks` under the issued tag; an inbound frame from `d` whose
body is `ack` followed by exactly that tag's digits removes exactly that
entry, leaves every other key's entry unchanged, produces no outbound
reply, and leaves mailboxes, chat groups and sequence counters untouched. -/
theorem ack_roundtrip (b : BBS) (d msg p : String) (fr : Frame)
    (hseq : seqCtr b d ≤ 99)
    (hp : parseFrame p = some fr)
    (hsrc : pyUpper fr.src = pyUpper d)
    (hdest : fr.destField = b.callsign)
    (hbody : fr.body = "ack" ++ issuedTag b d) :
    alookup (sendMessage b d msg true).1.pendingAcks (pyUpper d, issuedTag b d) = some msg
    ∧ (handlePacket (sendMessage b d msg true).1 p).2 = []
    ∧ (handlePacket (sendMessage b d msg true).1 p).1.pendingAcks
        = aremove (sendMessage b d msg true).1.pendingAcks (pyUpper d, issuedTag b d)
    ∧ alookup (handlePacket (sendMessage b d msg true).1 p).1.pendingAcks
        (pyUpper d, issuedTag b d) = none
    ∧ (∀ k, k ≠ (pyUpper d, issuedTag b d) →
        alookup (handlePacket (sendMessage b d msg true).1 p).1.pendingAcks k
          = alookup (sendMessage b d msg true).1.pendingAcks k)
    ∧ (handlePacket (sendMessage b d msg true).1 p).1.mailboxes = b.mailboxes
    ∧ (handlePacket (sendMessage b d msg true).1 p).1.chatGroups = b.chatGroups
    ∧ (handlePacket (sendMessage b d msg true).1 p).1.nextSeq
        = (sendMessage b d msg true).1.nextSeq := by
  have hn : seqCtr b d < 100 := by omega
  obtain ⟨f1, f2, f3, f4, f5⟩ := ack_fmt2_facts (seqCtr b d) hn
  have hcs : (sendMessage b d msg true).1.callsign = b.callsign :=
    sendMessage_callsign b d msg true
  have hlower : pyLower (pyStrip fr.body) = "ack" ++ fmt2 (seqCtr b d) := by
    rw [hbody]
    show pyLower (pyStrip ("ack" ++ fmt2 (seqCtr b d))) = _
    rw [f1, f2]
  have hstart : pyStartsWith (pyLower (pyStrip fr.body)) "ack" = true := by
    rw [hlower]; exact f3
  have hds : takeDigits 5 ((pyLower (pyStrip fr.body)).toList.drop 3)
      = (fmt2 (seqCtr b d)).toList := by
    rw [hlower]; exact f4
  have hne : ((fmt2 (seqCtr b d)).toList).isEmpty = false := fmt2_toList_ne _ hn
  have hkey : ((pyUpper fr.src, ((fmt2 (seqCtr b d)).toList).asString) : String × String)
      = (pyUpper d, issuedTag b d) := by
    rw [hsrc, f5]; rfl
  have hrun : handlePacket (sendMessage b d msg true).1 p
      = ({ (sendMessage b d msg true).1 with
            pendingAcks :=
              aremove (sendMessage b d msg true).1.pendingAcks (pyUpper d, issuedTag b d) },
          []) := by
    simp only [handlePacket, hp, hcs, hdest, hstart, hds, hne, hkey]
    simp
  have hpend : alookup (sendMessage b d msg true).1.pendingAcks (pyUpper d, issuedTag b d)
      = some msg := by
    rw [sendMessage_true_def]
    exact alookup_aset_self _ _ _
  refine ⟨hpend, by rw [hrun], by rw [hrun], ?_, ?_, ?_, ?_, ?_⟩
  · rw [hrun]
    exact alookup_aremove_self _ _
  · intro k hk
    rw [hrun]
    exact alookup_aremove_ne _ _ _ hk
  · rw [hrun]
    exact sendMessage_mailboxes b d msg true
  · rw [hrun]
    exact sendMessage_chatGroups b d msg true
  · rw [hrun]

theorem ack_roundtrip_witness :
    (handlePacket (sendMessage (initBBS "BBS") "N0CALL" "hi" true).1
        "N0CALL>APRS::BBS      :ack01").2 = []
    ∧ alookup (handlePacket (sendMessage (initBBS "BBS") "N0CALL" "hi" true).1
        "N0CALL>APRS::BBS      :ack01").1.pendingAcks
        (pyUpper "N0CALL", issuedTag (initBBS "BBS") "N0CALL") = none := by
  have h := ack_roundtrip (initBBS "BBS") "N0CALL" "hi" "N0CALL>APRS::BBS      :ack01"
    ⟨"N0CALL", "BBS", "ack01", none⟩ (by decide) (by decide) (by decide) (by decide) (by decide)
  exact ⟨h.2.1, h.2.2.2.1⟩

/-! Receipt acknowledgment of tagged inbound frames. -/

theorem handlePacket_tagged_run (b : BBS) (p : String) (fr : Frame) (t : String)
    (hp : parseFrame p = some fr)
    (hdest : fr.destField = b.callsign)
    (hack : pyStartsWith (pyLower (pyStrip fr.body)) "ack" = false)
    (hrej : pyStartsWith (pyLower (pyStrip fr.body)) "rej" = false)
    (htag : fr.seqTag = some t) :
    handlePacket b p
      = ((sendMessage (processCommand b (pyUpper fr.src) (pyStrip fr.body)).1 fr.src
            ("ack" ++ t) true).1,
          (processCommand b (pyUpper fr.src) (pyStrip fr.body)).2
            ++ [(sendMessage (processCommand b (pyUpper fr.src) (pyStrip fr.body)).1 fr.src
                  ("ack" ++ t) true).2]) := by
  simp only [handlePacket, hp, hdest, hack, hrej, htag]
  simp

/-- C5 counterexample: the inbound frame `ack01&#x7b;05` from `N0CALL` is
addressed to the BBS and carries sequence tag `05`, yet processing it
produces zero outbound messages — the early `return` of the `ack` branch
skips the receipt acknowledgment, so no `ack05` is appended. -/
theorem inbound_ack_no_receipt_cex :
    parseFrame "N0CALL>APRS,TCPIP*::BBS      :ack01\x7b05"
      = some ⟨"N0CALL", "BBS", "ack01", some "05"⟩
    ∧ handlePacket (initBBS "BBS") "N0CALL>APRS,TCPIP*::BBS      :ack01\x7b05"
      = (initBBS "BBS", []) := by decide

/-- C5 amended: for every inbound frame addressed to the BBS that carries a
sequence tag and whose body is not itself an `ack`/`rej` resolution, the
BBS appends exactly one additional outbound `ack<tag>` message to the
original sender after processing the body (also when the body produced no
reply); bodies starting with `ack`/`rej` return early and get no receipt
acknowledgment. -/
theorem receipt_ack_appended (b : BBS) (p : String) (fr : Frame) (t : String)
    (hp : parseFrame p = some fr)
    (hdest : fr.destField = b.callsign)
    (hack : pyStartsWith (pyLower (pyStrip fr.body)) "ack" = false)
    (hrej : pyStartsWith (pyLower (pyStrip fr.body)) "rej" = false)
    (htag : fr.seqTag = some t) :
    (handlePacket b p).2
      = (processCommand b (pyUpper fr.src) (pyStrip fr.body)).2
        ++ [⟨fr.src,
              "ack" ++ t ++ "\x7b"
                ++ issuedTag (processCommand b (pyUpper fr.src) (pyStrip fr.body)).1 fr.src,
              true⟩] := by
  rw [handlePacket_tagged_run b p fr t hp hdest hack hrej htag]
  rw [sendMessage_expectAck]

theorem receipt_ack_appended_witness :
    (handlePacket (initBBS "BBS") "N0CALL>APRS::BBS      :login\x7b07").2
      = (processCommand (initBBS "BBS") (pyUpper "N0CALL") (pyStrip "login")).2
        ++ [⟨"N0CALL",
              "ack" ++ "07" ++ "\x7b"
                ++ issuedTag
                    (processCommand (initBBS "BBS") (pyUpper "N0CALL") (pyStrip "login")).1
                    "N0CALL",
              true⟩] :=
  receipt_ack_appended (initBBS "BBS") "N0CALL>APRS::BBS      :login\x7b07"
    ⟨"N0CALL", "BBS", "login", some "07"⟩ "07" (by decide) (by decide) (by decide) (by decide)
    rfl

/-- C10: the receipt acknowledgment for a tagged inbound command frame is
itself sent with `expect_ack=true`: the sender's counter is advanced, a
pending-ack entry holding the untagged body `ack<tag>` is inserted, and
the transmitted body carries a fresh `&#x7b;NN` suffix. -/
theorem receipt_ack_requests_ack (b : BBS) (p : String) (fr : Frame) (t : String)
    (hp : parseFrame p = some fr)
    (hdest : fr.destField = b.callsign)
    (hack : pyStartsWith (pyLower (pyStrip fr.body)) "ack" = false)
    (hrej : pyStartsWith (pyLower (pyStrip fr.body)) "rej" = false)
    (htag : fr.seqTag = some t) :
    seqCtr (handlePacket b p).1 fr.src
        = seqCtr (processCommand b (pyUpper fr.src) (pyStrip fr.body)).1 fr.src % 99 + 1
    ∧ alookup (handlePacket b p).1.pendingAcks
        (pyUpper fr.src,
          issuedTag (processCommand b (pyUpper fr.src) (pyStrip fr.body)).1 fr.src)
        = some ("ack" ++ t)
    ∧ (handlePacket b p).2.getLast?
        = some ⟨fr.src,
            "ack" ++ t ++ "\x7b"
              ++ issuedTag (processCommand b (pyUpper fr.src) (pyStrip fr.body)).1 fr.src,
            true⟩ := by
  rw [handlePacket_tagged_run b p fr t hp hdest hack hrej htag]
  refine ⟨sendMessage_seqCtr_self _ _ _, ?_, ?_⟩
  · rw [sendMessage_true_def]
    exact alookup_aset_self _ _ _
  · rw [sendMessage_expectAck]
    exact List.getLast?_concat _

theorem receipt_ack_requests_ack_witness :
    alookup
        (handlePacket (initBBS "BBS") "N0CALL>APRS::BBS      :login\x7b07").1.pendingAcks
        (pyUpper "N0CALL",
          issuedTag (processCommand (initBBS "BBS") (pyUpper "N0CALL") (pyStrip "login")).1
            "N0CALL")
      = some ("ack" ++ "07") :=
  (receipt_ack_requests_ack (initBBS "BBS") "N0CALL>APRS::BBS      :login\x7b07"
    ⟨"N0CALL", "BBS", "login", some "07"⟩ "07" (by decide) (by decide) (by decide) (by decide)
    rfl).2.1

/-! Chat-group store invariant. -/

/-- No group record with an empty member set exists. -/
def groupsWF (b : BBS) : Prop :=
  ∀ p ∈ b.chatGroups, p.2 ≠ ([] : List String)

theorem broadcastTo_chatGroups (caller gname msg : String) :
    ∀ (members : List String) (b : BBS),
      (broadcastTo caller gname msg b members).1.chatGroups = b.chatGroups := by
  intro members
  induction members with
  | nil => intro b; rfl
  | cons mem rest ih =>
    intro b
    by_cases h : mem = caller
    · simp [broadcastTo, h, ih]
    · simp [broadcastTo, h, ih, sendMessage_chatGroups]

theorem groupsWF_aset (b : BBS) (g : String) (ms : List String) (hwf : groupsWF b)
    (hms : ms ≠ []) : ∀ p ∈ aset b.chatGroups g ms, p.2 ≠ ([] : List String) := by
  intro p hp
  rcases mem_aset b.chatGroups g ms p hp with h | h
  · rw [h]; exact hms
  · exact hwf p h

/-- C6: the "no empty group" invariant is preserved by `group create`,
`group join`, `group leave` and `group msg`; moreover `leave` by the last
remaining member deletes the group record in the same operation, and a
subsequent `join` of that name replies "does not exist". -/
theorem group_empty_invariant :
    (∀ (b : BBS) (c g : String), groupsWF b → groupsWF (createGroup b c g).1)
    ∧ (∀ (b : BBS) (c g : String), groupsWF b → groupsWF (joinGroup b c g).1)
    ∧ (∀ (b : BBS) (c g : String), groupsWF b → groupsWF (leaveGroup b c g).1)
    ∧ (∀ (b : BBS) (c g m : String), groupsWF b → groupsWF (groupMessage b c g m).1)
    ∧ (∀ (b : BBS) (c g : String), alookup b.chatGroups g = some [c] →
        alookup (leaveGroup b c g).1.chatGroups g = none
        ∧ ∀ c2, ∃ tg, (joinGroup (leaveGroup b c g).1 c2 g).2
            = [⟨c2, "Group \x27" ++ g ++ "\x27 does not exist." ++ ("\x7b" ++ tg), true⟩]) := by
  have hleave_last : ∀ (b : BBS) (c g : String), alookup b.chatGroups g = some [c] →
      (leaveGroup b c g).1.chatGroups = aremove (aset b.chatGroups g []) g := by
    intro b c g hlast
    simp [leaveGroup, hlast, sendMessage_chatGroups]
  refine ⟨?_, ?_, ?_, ?_, ?_⟩
  · intro b c g hwf
    rcases halo : alookup b.chatGroups g with _ | v
    · intro p hp
      simp only [createGroup, halo, sendMessage_chatGroups] at hp
      exact groupsWF_aset b g [c] hwf (by simp) p hp
    · intro p hp
      simp only [createGroup, halo, sendMessage_chatGroups] at hp
      exact hwf p hp
  · intro b c g hwf
    intro p hp
    simp only [joinGroup] at hp
    split at hp
    · rw [sendMessage_chatGroups] at hp
      exact hwf p hp
    · split at hp
      · rw [sendMessage_chatGroups] at hp
        exact hwf p hp
      · rw [sendMessage_chatGroups] at hp
        exact groupsWF_aset b g _ hwf (by simp) p hp
  · intro b c g hwf
    intro p hp
    simp only [leaveGroup] at hp
    split at hp
    · rw [sendMessage_chatGroups] at hp
      exact hwf p hp
    · split at hp
      · rw [sendMessage_chatGroups] at hp
        have h2 := List.mem_filter.mp hp
        rcases mem_aset b.chatGroups g _ p h2.1 with h3 | h3
        · exfalso
          have h4 : p.1 ≠ g := by simpa using h2.2
          exact h4 (by rw [h3])
        · exact hwf p h3
      · rw [sendMessage_chatGroups] at hp
        rename_i hne1
        rcases mem_aset b.chatGroups g _ p hp with h3 | h3
        · have h5 : p.2 = List.filter (fun x => decide (x ≠ c))
              ((alookup b.chatGroups g).getD []) := by rw [h3]
          rw [h5]
          intro h4
          apply hne1
          rw [h4]
          rfl
        · exact hwf p h3
  · intro b c g m hwf
    intro p hp
    simp only [groupMessage] at hp
    split at hp
    · rw [sendMessage_chatGroups] at hp
      exact hwf p hp
    · rw [sendMessage_chatGroups, broadcastTo_chatGroups] at hp
      exact hwf p hp
  · intro b c g hlast
    have hrm := hleave_last b c g hlast
    have hnone : alookup (leaveGroup b c g).1.chatGroups g = none := by
      rw [hrm]
      exact alookup_aremove_self _ _
    refine ⟨hnone, fun c2 => ?_⟩
    refine ⟨issuedTag (leaveGroup b c g).1 c2, ?_⟩
    have hmem : ((alookup (leaveGroup b c g).1.chatGroups g).getD []).isEmpty = true := by
      rw [hnone]; rfl
    simp only [joinGroup, hmem, if_true, sendMessage_expectAck]
    rw [str_append_assoc]

theorem group_empty_invariant_witness :
    alookup
      (leaveGroup ⟨"BBS", [], [("foo", ["N0CALL"])], [], []⟩ "N0CALL" "foo").1.chatGroups
      "foo" = none :=
  (group_empty_invariant.2.2.2.2 ⟨"BBS", [], [("foo", ["N0CALL"])], [], []⟩ "N0CALL" "foo"
    (by decide)).1

/-! No-op behaviour for unresolvable acks and malformed lines. -/

/-- C7: an inbound `ack`/`rej` frame whose `(source, tag)` pair has no
pending entry (including tag-less `ack` bodies) is a complete no-op: the
returned state is exactly the input state and no outbound message is
produced. -/
theorem unknown_ack_noop (b : BBS) (p : String) (fr : Frame)
    (hp : parseFrame p = some fr)
    (hdest : fr.destField = b.callsign)
    (hstart : pyStartsWith (pyLower (pyStrip fr.body)) "ack" = true
      ∨ pyStartsWith (pyLower (pyStrip fr.body)) "rej" = true)
    (hmiss : alookup b.pendingAcks
        (pyUpper fr.src,
          (takeDigits 5 ((pyLower (pyStrip fr.body)).toList.drop 3)).asString) = none) :
    handlePacket b p = (b, []) := by
  have hrem : aremove b.pendingAcks
      (pyUpper fr.src, (takeDigits 5 ((pyLower (pyStrip fr.body)).toList.drop 3)).asString)
      = b.pendingAcks := aremove_eq_self_of_none _ _ hmiss
  by_cases hack : pyStartsWith (pyLower (pyStrip fr.body)) "ack" = true
  · simp only [handlePacket, hp, hdest, hack]
    simp only [ne_eq, not_true_eq_false, if_false, if_true]
    split
    · rfl
    · rw [hrem]
  · have hack2 : pyStartsWith (pyLower (pyStrip fr.body)) "ack" = false := by
      revert hack
      cases pyStartsWith (pyLower (pyStrip fr.body)) "ack" <;> simp
    rcases hstart with h1 | h1
    · exact absurd h1 hack
    · simp only [handlePacket, hp, hdest, hack2, h1]
      simp only [ne_eq, not_true_eq_false, if_false, if_true, Bool.false_eq_true]
      split
      · rfl
      · rw [hrem]

theorem unknown_ack_noop_witness :
    handlePacket (initBBS "BBS") "N0CALL>APRS::BBS      :ack42" = (initBBS "BBS", []) :=
  unknown_ack_noop (initBBS "BBS") "N0CALL>APRS::BBS      :ack42"
    ⟨"N0CALL", "BBS", "ack42", none⟩ (by decide) (by decide) (Or.inl (by decide)) (by decide)

/-- C8: structural mismatch is a silent no-op — if the line codec rejects
the line, or the addressee field differs from the BBS callsign, the state
is returned unchanged with no outbound messages.  (The embedding itself is
total over arbitrary input strings, mirroring the absence of any
exception path in `_handle_packet`.) -/
theorem malformed_line_noop (b : BBS) (p : String) :
    (parseFrame p = none → handlePacket b p = (b, []))
    ∧ ∀ fr, parseFrame p = some fr → fr.destField ≠ b.callsign →
        handlePacket b p = (b, []) := by
  constructor
  · intro h
    simp [handlePacket, h]
  · intro fr h hne
    simp [handlePacket, h, hne]

theorem malformed_line_noop_witness :
    handlePacket (initBBS "BBS") "no colon here" = (initBBS "BBS", [])
    ∧ handlePacket (initBBS "BBS") "N0CALL>APRS::OTHER    :login" = (initBBS "BBS", []) :=
  ⟨(malformed_line_noop (initBBS "BBS") "no colon here").1 (by decide),
    (malformed_line_noop (initBBS "BBS") "N0CALL>APRS::OTHER    :login").2
      ⟨"N0CALL", "OTHER", "login", none⟩ (by decide) (by decide)⟩

/-! The `group` usage-error path. -/

/-- C9 counterexample: a bare `group` body (no sub-command at all) falls
through to the generic "Unknown command" reply instead of the group usage
error, and a `group frobnicate` usage reply itself mutates the
pending-ack store (and sequence counter), since it is sent with
`expect_ack=true`. -/
theorem bare_group_cex :
    (processCommand (initBBS "BBS") "N0CALL" "group").2
      = [⟨"N0CALL", "Unknown command. Send \x27help\x27 for a list of commands.\x7b01", true⟩]
    ∧ (processCommand (initBBS "BBS") "N0CALL" "group frobnicate").1.pendingAcks
      = [(("N0CALL", "01"), "Usage: group [create|join|leave|msg] <name> [message]")] := by
  decide

/-- C9 amended: a `group` command with at least one sub-argument whose
sub-command is unrecognized or lacks its required arguments is answered
with the group usage-error reply; mailboxes and chat groups are untouched,
but the reply itself (sent with `expect_ack=true`) advances the caller's
sequence counter and records a pending-ack entry.  A bare `group` instead
gets the "Unknown command" reply (see the counterexample). -/
theorem group_usage_error (b : BBS) (fromCall text c0 sub0 : String) (args : List String)
    (hne : text ≠ "")
    (hsplit : pySplitWs (pyStrip text) = c0 :: sub0 :: args)
    (hc : pyLower c0 = "group")
    (hbad : (pyLower sub0 ≠ "create" ∧ pyLower sub0 ≠ "join" ∧ pyLower sub0 ≠ "leave"
              ∧ pyLower sub0 ≠ "msg")
      ∨ args = []
      ∨ (pyLower sub0 = "msg" ∧ args.length < 2)) :
    (processCommand b fromCall text).2
      = [⟨fromCall,
          "Usage: group [create|join|leave|msg] <name> [message]"
            ++ ("\x7b" ++ issuedTag b fromCall), true⟩]
    ∧ (processCommand b fromCall text).1.mailboxes = b.mailboxes
    ∧ (processCommand b fromCall text).1.chatGroups = b.chatGroups
    ∧ (processCommand b fromCall text).1.pendingAcks
        = aset b.pendingAcks (pyUpper fromCall, issuedTag b fromCall)
            "Usage: group [create|join|leave|msg] <name> [message]"
    ∧ seqCtr (processCommand b fromCall text).1 fromCall = seqCtr b fromCall % 99 + 1 := by
  have hdispatch : groupDispatch b fromCall sub0 args = groupUsage b fromCall := by
    rcases hbad with ⟨h1, h2, h3, h4⟩ | h1 | ⟨h1, h2⟩
    · cases args with
      | nil => rfl
      | cons g more =>
        simp only [groupDispatch]
        rw [if_neg h1, if_neg h2, if_neg h3, if_neg h4]
    · subst h1; rfl
    · cases args with
      | nil => rfl
      | cons g more =>
        cases more with
        | nil =>
          simp only [groupDispatch, h1]
          simp
        | cons m1 m2 =>
          exfalso
          simp only [List.length_cons] at h2
          omega
  have hrun : processCommand b fromCall text = groupUsage b fromCall := by
    simp only [processCommand, hne, hsplit, hc]
    simp only [if_false]
    norm_num
    exact hdispatch
  rw [hrun]
  exact ⟨by rw [show (groupUsage b fromCall).2
        = [(sendMessage b fromCall "Usage: group [create|join|leave|msg] <name> [message]"
            true).2] from rfl, sendMessage_expectAck, str_append_assoc],
    sendMessage_mailboxes _ _ _ _, sendMessage_chatGroups _ _ _ _,
    by rw [show (groupUsage b fromCall).1
        = (sendMessage b fromCall "Usage: group [create|join|leave|msg] <name> [message]"
            true).1 from rfl, sendMessage_true_def],
    sendMessage_seqCtr_self _ _ _⟩

theorem group_usage_error_witness :
    (processCommand (initBBS "BBS") "N0CALL" "group frobnicate").2
      = [⟨"N0CALL",
          "Usage: group [create|join|leave|msg] <name> [message]"
            ++ ("\x7b" ++ issuedTag (initBBS "BBS") "N0CALL"), true⟩] :=
  (group_usage_error (initBBS "BBS") "N0CALL" "group frobnicate" "group" "frobnicate" []
    (by decide) (by decide) (by decide) (Or.inr (Or.inl rfl))).1

end AprsBbs
